import Mathlib

/-!
Shallow embedding of the ai-stock-report dataset-normalization and
valuation-metrics pipeline, translated from the repository source
(web/src/App.jsx, server/index.js, server/ingest.js, and the merged
web/src/App.jsx variant).

JavaScript numbers are modelled as exact rationals together with the
special values NaN, Infinity and -Infinity; JavaScript `null` and
`undefined` are modelled explicitly.  Loosely-typed spreadsheet rows are
association lists from string keys to JavaScript values.
-/

/-- Model of a JavaScript number: a finite value (an exact rational;
floating-point rounding and signed zero are idealized away), or one of
the special values NaN, Infinity, -Infinity. -/
inductive JSNum where
  | fin (q : ℚ)
  | nan
  | inf
  | negInf
deriving DecidableEq

namespace JSNum

/-- `Number.isFinite` on a number. -/
def isFinite : JSNum → Bool
  | fin _ => true
  | _ => false

/-- JavaScript `+` on numbers. -/
def add : JSNum → JSNum → JSNum
  | nan, _ => nan
  | _, nan => nan
  | inf, negInf => nan
  | negInf, inf => nan
  | inf, _ => inf
  | _, inf => inf
  | negInf, _ => negInf
  | _, negInf => negInf
  | fin a, fin b => fin (a + b)

/-- JavaScript `-` on numbers. -/
def sub : JSNum → JSNum → JSNum
  | nan, _ => nan
  | _, nan => nan
  | inf, inf => nan
  | negInf, negInf => nan
  | inf, _ => inf
  | negInf, _ => negInf
  | _, inf => negInf
  | _, negInf => inf
  | fin a, fin b => fin (a - b)

/-- JavaScript `*` on numbers. -/
def mul : JSNum → JSNum → JSNum
  | nan, _ => nan
  | _, nan => nan
  | inf, inf => inf
  | inf, negInf => negInf
  | negInf, inf => negInf
  | negInf, negInf => inf
  | inf, fin b => if 0 < b then inf else if b < 0 then negInf else nan
  | fin a, inf => if 0 < a then inf else if a < 0 then negInf else nan
  | negInf, fin b => if 0 < b then negInf else if b < 0 then inf else nan
  | fin a, negInf => if 0 < a then negInf else if a < 0 then inf else nan
  | fin a, fin b => fin (a * b)

/-- JavaScript `/` on numbers (division by zero yields an infinity or NaN,
never an error). -/
def div : JSNum → JSNum → JSNum
  | nan, _ => nan
  | _, nan => nan
  | inf, inf => nan
  | inf, negInf => nan
  | negInf, inf => nan
  | negInf, negInf => nan
  | inf, fin b => if b < 0 then negInf else inf
  | negInf, fin b => if b < 0 then inf else negInf
  | fin _, inf => fin 0
  | fin _, negInf => fin 0
  | fin a, fin b =>
    if b = 0 then (if 0 < a then inf else if a < 0 then negInf else nan)
    else fin (a / b)

/-- JavaScript truthiness of a number (`0` and `NaN` are falsy). -/
def truthy : JSNum → Bool
  | fin q => if q = 0 then false else true
  | nan => false
  | inf => true
  | negInf => true

end JSNum

/-- Model of a loosely-typed JavaScript value as found in a raw row. -/
inductive JSVal where
  | num (n : JSNum)
  | str (s : String)
  | bool (b : Bool)
  | null
  | undefined
deriving DecidableEq

/-- ECMAScript whitespace (the characters trimmed by `String.prototype.trim`
that occur in practice: space, tab, LF, CR, VT, FF, NBSP, BOM). -/
def jsWhitespaceChar (c : Char) : Bool :=
  c == ' ' || c == '\t' || c == '\n' || c == '\r' ||
  c.toNat == 11 || c.toNat == 12 || c.toNat == 160 || c.toNat == 65279

/-- `String.prototype.trim`, on the character list of a string. -/
def trimList (cs : List Char) : List Char :=
  ((cs.dropWhile jsWhitespaceChar).reverse.dropWhile jsWhitespaceChar).reverse

/-- `String.prototype.toLowerCase` on one character (ASCII range, which is
all the source's header names use). -/
def lowerChar (c : Char) : Char :=
  if 'A' ≤ c ∧ c ≤ 'Z' then Char.ofNat (c.toNat + 32) else c

/-- Value of a list of decimal digit characters. -/
def digitsToNat (cs : List Char) : ℕ :=
  cs.foldl (fun a c => 10 * a + (c.toNat - 48)) 0

/-- Parse an unsigned decimal numeric literal (`digits`, `digits.digits`,
`.digits`, `digits.`), the decimal forms the repository's data uses.
Exponent and hexadecimal forms of ECMAScript StrNumericLiteral are not
modelled. -/
def parseDecimal (cs : List Char) : Option ℚ :=
  let ip := cs.takeWhile Char.isDigit
  let rest := cs.dropWhile Char.isDigit
  match rest with
  | [] => if ip = [] then none else some ((digitsToNat ip : ℚ))
  | '.' :: fr =>
    if fr.all Char.isDigit ∧ (ip ≠ [] ∨ fr ≠ []) then
      some ((digitsToNat ip : ℚ) + (digitsToNat fr : ℚ) / (10 : ℚ) ^ fr.length)
    else none
  | _ => none

/-- Unsigned part of ECMAScript StringToNumber: `Infinity` or a decimal
literal. -/
def parseUnsignedJS (cs : List Char) : Option JSNum :=
  if cs = "Infinity".data then some .inf else (parseDecimal cs).map .fin

/-- ECMAScript `Number(string)`: trim whitespace; the empty remainder is 0;
otherwise an optionally signed numeric literal, and NaN on anything else. -/
def stringToNumber (s : String) : JSNum :=
  match trimList s.data with
  | [] => .fin 0
  | '+' :: cs =>
    match parseUnsignedJS cs with
    | some n => n
    | none => .nan
  | '-' :: cs =>
    match parseUnsignedJS cs with
    | some (.fin q) => .fin (-q)
    | some .inf => .negInf
    | some n => n
    | none => .nan
  | cs =>
    match parseUnsignedJS cs with
    | some n => n
    | none => .nan

/-- ECMAScript `Number(v)` coercion. -/
def toNumber : JSVal → JSNum
  | .num n => n
  | .str s => stringToNumber s
  | .bool b => .fin (if b then 1 else 0)
  | .null => .fin 0
  | .undefined => .nan

/-- Whether a value is nullish (`null` or `undefined`), as tested by `??`. -/
def nullish : JSVal → Bool
  | .null => true
  | .undefined => true
  | _ => false

/-- JavaScript nullish coalescing `a ?? b`. -/
def coalesce (a b : JSVal) : JSVal :=
  if nullish a then b else a

/-- One canonical per-year financial record (`FinancialRecord`).  The
normalizer only ever produces finite years; the field types admit the
values the metrics functions are specified over. -/
structure FinancialRecord where
  year : JSNum
  revenue : Option JSNum
  operatingIncome : Option JSNum
  netIncome : Option JSNum
  sharesOutstanding : Option JSNum
deriving DecidableEq

/-- A raw spreadsheet-derived row: an ordered key-value record. -/
abbrev RawRow := List (String × JSVal)

/-- Key normalization in `lowerMap` / `normalizeHeader`:
`String(k).trim().toLowerCase()`. -/
def normKey (k : String) : String :=
  String.mk ((trimList k.data).map lowerChar)

/-- The entries of the case-insensitive lookup map built by `lowerMap`,
in insertion order (later entries overwrite earlier ones on lookup, as
`Map.prototype.set` does). -/
def lowerMapEntries (r : RawRow) : List (String × JSVal) :=
  r.map (fun p => (normKey p.1, p.2))

/-- `m.get(k)` on the `lowerMap` of a row (`undefined` when absent; the
last entry wins, as with `Map.prototype.set`). -/
def mapGet (r : RawRow) (k : String) : JSVal :=
  (((lowerMapEntries r).reverse).lookup k).getD .undefined

/-- `m.has(k)` on the `lowerMap` of a row. -/
def mapHas (r : RawRow) (k : String) : Bool :=
  (lowerMapEntries r).any (fun p => p.1 == k)

/-- The `num` helper of `normalizeFinancialRows`:
`Number.isFinite(Number(v)) ? Number(v) : null`. -/
def num (v : JSVal) : Option JSNum :=
  match toNumber v with
  | .fin q => some (.fin q)
  | _ => none

/-- The loop body of `normalizeFinancialRows`: resolve the aliased fields
through the case-insensitive map, coerce them, and drop the row when the
year does not coerce to a finite number. -/
def rowRecord (r : RawRow) : Option FinancialRecord :=
  let year := num (mapGet r "year")
  let revenue := num (coalesce (mapGet r "revenue") (mapGet r "sales"))
  let op := num (coalesce (mapGet r "operatingincome") (mapGet r "operating_income"))
  let net := num (coalesce (mapGet r "netincome") (mapGet r "net_income"))
  let shares := if mapHas r "sharesoutstanding" then num (mapGet r "sharesoutstanding") else none
  match year with
  | some y =>
    some { year := y, revenue := revenue, operatingIncome := op,
           netIncome := net, sharesOutstanding := shares }
  | none => none

/-- The year key used by the final `out.sort((a, b) => a.year - b.year)`.
The normalizer only pushes records with finite years, so the default for
the special values is never reached on its output. -/
def yearVal : JSNum → ℚ
  | .fin q => q
  | _ => 0

/-- The comparator order of `out.sort((a, b) => a.year - b.year)`. -/
def yearOrd (a b : FinancialRecord) : Prop :=
  yearVal a.year ≤ yearVal b.year

instance : DecidableRel yearOrd :=
  fun a b => inferInstanceAs (Decidable (yearVal a.year ≤ yearVal b.year))

instance : IsTotal FinancialRecord yearOrd :=
  ⟨fun a b => le_total (yearVal a.year) (yearVal b.year)⟩

instance : IsTrans FinancialRecord yearOrd :=
  ⟨fun _ _ _ h1 h2 => le_trans h1 h2⟩

/-- `normalizeFinancialRows`: keep the rows with a finite year, then sort
ascending by year (a stable sort, as ECMAScript requires of
`Array.prototype.sort`). -/
def normalizeFinancialRows (arr : List RawRow) : List FinancialRecord :=
  List.insertionSort yearOrd (arr.filterMap rowRecord)

/-- One `GrowthPoint` of the growth series. -/
structure GrowthPoint where
  year : JSNum
  growth : Option JSNum
deriving DecidableEq

/-- `Number.isFinite` applied to a number-or-null field. -/
def isFiniteOpt : Option JSNum → Bool
  | some n => n.isFinite
  | none => false

/-- The body of `calcGrowth` for one adjacent pair: when both revenues are
finite, `growth = (curr.revenue - prev.revenue) / prev.revenue`, else
null. -/
def growthPoint (prev curr : FinancialRecord) : GrowthPoint :=
  { year := curr.year,
    growth :=
      match prev.revenue, curr.revenue with
      | some p, some c =>
        if p.isFinite && c.isFinite then some ((c.sub p).div p) else none
      | _, _ => none }

/-- `calcGrowth`: one growth point per adjacent pair of records. -/
def calcGrowth : List FinancialRecord → List GrowthPoint
  | prev :: curr :: rest => growthPoint prev curr :: calcGrowth (curr :: rest)
  | _ => []

/-- One `FairValuePoint` of the fair-value series. -/
structure FairValuePoint where
  year : JSNum
  equityValue : Option JSNum
  fairValuePerShare : Option JSNum
deriving DecidableEq

/-- The local `equityValue` of `computeFairValuePerYear`:
`Number.isFinite(r.netIncome) ? r.netIncome * targetPE : null`. -/
def equityValueOf (targetPE : JSNum) (r : FinancialRecord) : Option JSNum :=
  match r.netIncome with
  | some n => if n.isFinite then some (n.mul targetPE) else none
  | none => none

/-- The local `perShare` of `computeFairValuePerYear`:
`r.sharesOutstanding && equityValue != null ? equityValue / r.sharesOutstanding : null`. -/
def fairValuePerShareOf (targetPE : JSNum) (r : FinancialRecord) : Option JSNum :=
  match r.sharesOutstanding, equityValueOf targetPE r with
  | some s, some e => if s.truthy then some (e.div s) else none
  | _, _ => none

/-- The body of `computeFairValuePerYear` for one record. -/
def fairValuePoint (targetPE : JSNum) (r : FinancialRecord) : FairValuePoint :=
  { year := r.year, equityValue := equityValueOf targetPE r,
    fairValuePerShare := fairValuePerShareOf targetPE r }

/-- `computeFairValuePerYear`: one fair-value point per record, in input
order. -/
def computeFairValuePerYear (rows : List FinancialRecord) (targetPE : JSNum) :
    List FairValuePoint :=
  rows.map (fairValuePoint targetPE)

/-- The numeric fields of the valuation snapshot assembled by
`fetchValuationMetrics` (the `currency` string and the derived `weighted`
field are not part of the input bundle). -/
structure ValuationSnapshot where
  price : JSNum
  fairEV : JSNum
  fairPE : JSNum
  fairPS : JSNum
  bookValue : JSNum
  grossMargin : JSNum
  netMargin : JSNum
  opMargin : JSNum
deriving DecidableEq

/-- The blend computed in `fetchValuationMetrics`:
`fairEV * 0.5 + fairPE * 0.25 + fairPS * 0.25`. -/
def weightedFairValue (fairEV fairPE fairPS : JSNum) : JSNum :=
  ((fairEV.mul (.fin (1/2))).add (fairPE.mul (.fin (1/4)))).add
    (fairPS.mul (.fin (1/4)))

/-- The deterministic local fallback of `askAI`:
`metrics.fairEV * 0.5 + metrics.fairPE * 0.25 + metrics.fairPS * 0.25`. -/
def askAILocalFV (m : ValuationSnapshot) : JSNum :=
  ((m.fairEV.mul (.fin (1/2))).add (m.fairPE.mul (.fin (1/4)))).add
    (m.fairPS.mul (.fin (1/4)))

/-- The blended-fair-value formula exactly as the specification words it:
`0.5 * evPerShare + 0.25 * pePerShare + 0.25 * psPerShare`. -/
def specBlendedFairValue (m : ValuationSnapshot) : JSNum :=
  (((JSNum.fin (1/2)).mul m.fairEV).add ((JSNum.fin (1/4)).mul m.fairPE)).add
    ((JSNum.fin (1/4)).mul m.fairPS)
-- helper lemmas about calcGrowth

theorem growthPoint_year (prev curr : FinancialRecord) :
    (growthPoint prev curr).year = curr.year := rfl

theorem calcGrowth_length (rows : List FinancialRecord) :
    (calcGrowth rows).length = rows.length - 1 := by
  induction rows with
  | nil => rfl
  | cons a t ih =>
    cases t with
    | nil => rfl
    | cons b t2 =>
      simp only [calcGrowth, List.length_cons] at ih ⊢
      omega

theorem calcGrowth_map_year (rows : List FinancialRecord) :
    (calcGrowth rows).map GrowthPoint.year = rows.tail.map FinancialRecord.year := by
  induction rows with
  | nil => rfl
  | cons a t ih =>
    cases t with
    | nil => rfl
    | cons b t2 =>
      simp only [calcGrowth, List.map_cons, List.tail_cons] at ih ⊢
      rw [ih, growthPoint_year]

theorem calcGrowth_eq_zipWith (rows : List FinancialRecord) :
    calcGrowth rows = List.zipWith growthPoint rows rows.tail := by
  induction rows with
  | nil => rfl
  | cons a t ih =>
    cases t with
    | nil => rfl
    | cons b t2 =>
      simp only [calcGrowth, List.tail_cons, List.zipWith_cons_cons] at ih ⊢
      rw [ih]

/-- C7: for every record sequence, `calcGrowth` yields exactly
`rows.length - 1` points (0 for an empty input), and the i-th point
carries the year of the (i+1)-th input record: the years of the output
are exactly the years of the input with its first record removed, in
order. -/
theorem calcGrowth_length_and_years (rows : List FinancialRecord) :
    (calcGrowth rows).length = rows.length - 1 ∧
    (calcGrowth rows).map GrowthPoint.year = rows.tail.map FinancialRecord.year :=
  ⟨calcGrowth_length rows, calcGrowth_map_year rows⟩

/-- C1 counterexample: `calcGrowth` applies no zero-divisor guard.  With
`prev.revenue = 0` (a finite number) and `curr.revenue = 10`, the guard
`Number.isFinite(prev.revenue)` passes and the division yields Infinity,
so the growth field is `Infinity`, not `null` as the claim states. -/
theorem calcGrowth_zero_base_infinity :
    calcGrowth
      [ { year := .fin 2020, revenue := some (.fin 0), operatingIncome := none,
          netIncome := none, sharesOutstanding := none },
        { year := .fin 2021, revenue := some (.fin 10), operatingIncome := none,
          netIncome := none, sharesOutstanding := none } ]
      = [ { year := .fin 2021, growth := some JSNum.inf } ] ∧
    (some JSNum.inf ≠ (none : Option JSNum)) := by
  constructor
  · norm_num [calcGrowth, growthPoint, JSNum.isFinite, JSNum.sub, JSNum.div]
  · simp

/-- C1 (amended): `calcGrowth` pairs adjacent records; for each pair the
growth field is `null` exactly when either revenue is missing or
non-finite.  When both revenues are finite and `prev.revenue ≠ 0` the
growth is the finite ratio `(curr.revenue - prev.revenue) / prev.revenue`;
but when `prev.revenue = 0` is finite, the code performs the division
anyway and the growth is a non-finite number (Infinity, -Infinity or
NaN), not `null`. -/
theorem calcGrowth_growth_null_safety :
    (∀ rows : List FinancialRecord,
      calcGrowth rows = List.zipWith growthPoint rows rows.tail) ∧
    (∀ prev curr : FinancialRecord,
      ((isFiniteOpt prev.revenue = false ∨ isFiniteOpt curr.revenue = false) →
        (growthPoint prev curr).growth = none) ∧
      (∀ p c : ℚ, prev.revenue = some (.fin p) → curr.revenue = some (.fin c) →
        p ≠ 0 → (growthPoint prev curr).growth = some (.fin ((c - p) / p))) ∧
      (∀ c : ℚ, prev.revenue = some (.fin 0) → curr.revenue = some (.fin c) →
        ∃ x : JSNum, (growthPoint prev curr).growth = some x ∧ x.isFinite = false) ∧
      (∀ q : ℚ, (growthPoint prev curr).growth = some (.fin q) →
        ∃ p c : ℚ, prev.revenue = some (.fin p) ∧ curr.revenue = some (.fin c) ∧
          p ≠ 0 ∧ q = (c - p) / p)) := by
  refine ⟨calcGrowth_eq_zipWith, ?_⟩
  intro prev curr
  refine ⟨?_, ?_, ?_, ?_⟩
  · intro h
    unfold growthPoint
    rcases hp : prev.revenue with _ | p <;> rcases hc : curr.revenue with _ | c <;> simp
    rw [hp, hc] at h
    rcases h with h | h <;> simp [isFiniteOpt] at h <;> simp [h]
  · intro p c hp hc hp0
    unfold growthPoint
    rw [hp, hc]
    simp [JSNum.isFinite, JSNum.sub, JSNum.div, hp0]
  · intro c hp hc
    unfold growthPoint
    rw [hp, hc]
    rcases lt_trichotomy c 0 with h | h | h
    · exact ⟨.negInf, by simp [JSNum.isFinite, JSNum.sub, JSNum.div]; split <;> simp_all <;> linarith, rfl⟩
    · exact ⟨.nan, by simp [JSNum.isFinite, JSNum.sub, JSNum.div, h], rfl⟩
    · exact ⟨.inf, by simp [JSNum.isFinite, JSNum.sub, JSNum.div]; split <;> simp_all, rfl⟩
  · intro q h
    unfold growthPoint at h
    rcases hp : prev.revenue with _ | p <;> rw [hp] at h
    · simp at h
    rcases hc : curr.revenue with _ | c <;> rw [hc] at h
    · simp at h
    rcases p with p | _ | _ | _ <;> rcases c with c | _ | _ | _ <;>
      simp [JSNum.isFinite, JSNum.sub, JSNum.div] at h
    by_cases hz : p = 0
    · subst hz
      rcases lt_trichotomy c 0 with hcc | hcc | hcc <;>
        simp [hcc, sub_zero, if_pos, if_neg, not_lt_of_lt] at h
    · refine ⟨p, c, rfl, rfl, hz, ?_⟩
      simp [hz] at h
      exact h.symm

/-- C1 witness: at concrete records with revenues 100 then 150, the
amended theorem yields the finite growth (150 - 100) / 100. -/
theorem calcGrowth_growth_null_safety_witness :
    (growthPoint
      { year := .fin 2022, revenue := some (.fin 100), operatingIncome := none,
        netIncome := none, sharesOutstanding := none }
      { year := .fin 2023, revenue := some (.fin 150), operatingIncome := none,
        netIncome := none, sharesOutstanding := none }).growth =
      some (.fin ((150 - 100) / 100)) :=
  (calcGrowth_growth_null_safety.2 _ _).2.1 100 150 rfl rfl (by norm_num)
-- helper lemmas about num / rowRecord / normalizeFinancialRows

theorem num_eq_none_iff (v : JSVal) :
    num v = none ↔ (toNumber v).isFinite = false := by
  unfold num
  cases toNumber v <;> simp [JSNum.isFinite]

theorem num_eq_some_fin (v : JSVal) (n : JSNum) (h : num v = some n) :
    ∃ q : ℚ, n = .fin q := by
  unfold num at h
  cases htn : toNumber v <;> rw [htn] at h <;> simp at h
  exact ⟨_, h.symm⟩

theorem rowRecord_eq_some_iff (r : RawRow) (rec : FinancialRecord) :
    rowRecord r = some rec ↔
      num (mapGet r "year") = some rec.year ∧
      rec.revenue = num (coalesce (mapGet r "revenue") (mapGet r "sales")) ∧
      rec.operatingIncome = num (coalesce (mapGet r "operatingincome") (mapGet r "operating_income")) ∧
      rec.netIncome = num (coalesce (mapGet r "netincome") (mapGet r "net_income")) ∧
      rec.sharesOutstanding =
        (if mapHas r "sharesoutstanding" then num (mapGet r "sharesoutstanding") else none) := by
  unfold rowRecord
  cases hy : num (mapGet r "year") with
  | none => simp [hy]
  | some y =>
    simp only [hy]
    constructor
    · intro h
      obtain h2 := Option.some.inj h
      subst h2
      exact ⟨rfl, rfl, rfl, rfl, rfl⟩
    · rintro ⟨h1, h2, h3, h4, h5⟩
      obtain h1 := Option.some.inj h1
      cases rec
      simp_all

theorem rowRecord_year_fin (r : RawRow) (rec : FinancialRecord)
    (h : rowRecord r = some rec) : ∃ q : ℚ, rec.year = .fin q := by
  obtain ⟨h1, -⟩ := (rowRecord_eq_some_iff r rec).1 h
  exact num_eq_some_fin _ _ h1

theorem mem_normalize (rec : FinancialRecord) (rows : List RawRow) :
    rec ∈ normalizeFinancialRows rows ↔ ∃ r ∈ rows, rowRecord r = some rec := by
  unfold normalizeFinancialRows
  rw [(List.perm_insertionSort yearOrd (rows.filterMap rowRecord)).mem_iff]
  exact List.mem_filterMap

theorem normalize_pairwise (rows : List RawRow) :
    List.Pairwise yearOrd (normalizeFinancialRows rows) :=
  List.sorted_insertionSort yearOrd (rows.filterMap rowRecord)
-- ---------- C2 ----------

/-- C2: `computeFairValuePerYear` maps each record to its fair-value
point in order; the per-share value is `null` whenever
`sharesOutstanding` is `null` or `0` (the falsy check), regardless of
`netIncome` and `targetMultiple`; and it is
`equityValue / sharesOutstanding` whenever `sharesOutstanding` is a
truthy finite number and `equityValue` is non-null. -/
theorem computeFairValuePerYear_share_guard :
    (∀ (rows : List FinancialRecord) (pe : JSNum),
      computeFairValuePerYear rows pe = rows.map (fairValuePoint pe)) ∧
    (∀ (pe : JSNum) (r : FinancialRecord),
      ((r.sharesOutstanding = none ∨ r.sharesOutstanding = some (.fin 0)) →
        (fairValuePoint pe r).fairValuePerShare = none) ∧
      (∀ s : ℚ, r.sharesOutstanding = some (.fin s) → s ≠ 0 →
        ∀ e : JSNum, (fairValuePoint pe r).equityValue = some e →
          (fairValuePoint pe r).fairValuePerShare = some (e.div (.fin s)))) := by
  refine ⟨fun rows pe => rfl, ?_⟩
  intro pe r
  constructor
  · intro h
    show fairValuePerShareOf pe r = none
    unfold fairValuePerShareOf
    rcases h with h | h <;> rw [h] <;>
      rcases he : equityValueOf pe r with _ | e <;>
        simp [JSNum.truthy]
  · intro s hs hs0 e he
    show fairValuePerShareOf pe r = some (e.div (.fin s))
    have he2 : equityValueOf pe r = some e := he
    unfold fairValuePerShareOf
    rw [hs, he2]
    simp [JSNum.truthy, hs0]

/-- C2 witness: with netIncome 10 and target multiple 25, a record with
null shares yields a null per-share value, and a record with 5 shares
yields (10 * 25) / 5. -/
theorem computeFairValuePerYear_share_guard_witness :
    (fairValuePoint (.fin 25)
      { year := .fin 2022, revenue := none, operatingIncome := none,
        netIncome := some (.fin 10), sharesOutstanding := none }).fairValuePerShare = none ∧
    (fairValuePoint (.fin 25)
      { year := .fin 2022, revenue := none, operatingIncome := none,
        netIncome := some (.fin 10), sharesOutstanding := some (.fin 5) }).fairValuePerShare =
      some (((JSNum.fin 10).mul (.fin 25)).div (.fin 5)) := by
  constructor
  · exact (computeFairValuePerYear_share_guard.2 (.fin 25) _).1 (Or.inl rfl)
  · exact (computeFairValuePerYear_share_guard.2 (.fin 25) _).2 5 rfl (by norm_num) _ rfl

-- ---------- C3 ----------

/-- C3 counterexample: an empty value does not fail numeric coercion in
the code: `Number("") = 0`, so a row with `revenue: ""` produces a
record with `revenue = 0`, not `null` as the claim states. -/
theorem normalize_empty_string_coerces_to_zero :
    normalizeFinancialRows [[("year", .num (.fin 2020)), ("revenue", .str "")]] =
      [{ year := .fin 2020, revenue := some (.fin 0), operatingIncome := none,
         netIncome := none, sharesOutstanding := none }] := by decide

/-- C3 (amended): in a surviving record each of revenue,
operatingIncome and netIncome is `null` exactly when its resolved value
coerces to a non-finite number (undefined/missing keys, non-numeric
strings, NaN or infinite numbers) — the empty or whitespace-only string
and `null` coerce to 0, not to `null`; `sharesOutstanding` is `null`
whenever no recognized key is present, and when one is present it too is
`null` exactly on non-finite coercion. -/
theorem normalize_null_field_condition (r : RawRow) (rec : FinancialRecord)
    (h : rowRecord r = some rec) :
    (rec.revenue = none ↔
      (toNumber (coalesce (mapGet r "revenue") (mapGet r "sales"))).isFinite = false) ∧
    (rec.operatingIncome = none ↔
      (toNumber (coalesce (mapGet r "operatingincome") (mapGet r "operating_income"))).isFinite = false) ∧
    (rec.netIncome = none ↔
      (toNumber (coalesce (mapGet r "netincome") (mapGet r "net_income"))).isFinite = false) ∧
    (mapHas r "sharesoutstanding" = false → rec.sharesOutstanding = none) ∧
    (mapHas r "sharesoutstanding" = true →
      (rec.sharesOutstanding = none ↔
        (toNumber (mapGet r "sharesoutstanding")).isFinite = false)) := by
  obtain ⟨-, h2, h3, h4, h5⟩ := (rowRecord_eq_some_iff r rec).1 h
  refine ⟨?_, ?_, ?_, ?_, ?_⟩
  · rw [h2]; exact num_eq_none_iff _
  · rw [h3]; exact num_eq_none_iff _
  · rw [h4]; exact num_eq_none_iff _
  · intro hh; rw [h5, hh]; simp
  · intro hh; rw [h5, hh]; simpa using num_eq_none_iff _

/-- C3 witness: a row with year 2021, revenue "abc" and an undefined
sharesOutstanding value survives with null revenue and null shares. -/
theorem normalize_null_field_condition_witness :
    ({ year := .fin 2021, revenue := none, operatingIncome := none,
       netIncome := none, sharesOutstanding := none } : FinancialRecord).revenue = none ∧
    ({ year := .fin 2021, revenue := none, operatingIncome := none,
       netIncome := none, sharesOutstanding := none } : FinancialRecord).sharesOutstanding = none := by
  constructor
  · exact (normalize_null_field_condition
      [("Year", JSVal.num (.fin 2021)), ("Revenue", JSVal.str "abc"),
       ("SharesOutstanding", JSVal.undefined)]
      { year := .fin 2021, revenue := none, operatingIncome := none,
        netIncome := none, sharesOutstanding := none }
      (by decide)).1.mpr (by decide)
  · exact ((normalize_null_field_condition
      [("Year", JSVal.num (.fin 2021)), ("Revenue", JSVal.str "abc"),
       ("SharesOutstanding", JSVal.undefined)]
      { year := .fin 2021, revenue := none, operatingIncome := none,
        netIncome := none, sharesOutstanding := none }
      (by decide)).2.2.2.2 (by decide)).mpr (by decide)

-- ---------- C4 ----------

/-- Non-decreasing year order between records with finite years. -/
def yearLe (a b : FinancialRecord) : Prop :=
  match a.year, b.year with
  | .fin p, .fin q => p ≤ q
  | _, _ => False

/-- C4: the normalizer's output is sorted non-decreasing by year: every
pair of records in output order has finite years in non-decreasing
order (duplicate years pass through). -/
theorem normalize_sorted_by_year (rows : List RawRow) :
    List.Pairwise yearLe (normalizeFinancialRows rows) := by
  refine List.Pairwise.imp_of_mem ?_ (normalize_pairwise rows)
  intro a b ha hb hab
  obtain ⟨ra, -, hra⟩ := (mem_normalize a rows).1 ha
  obtain ⟨rb, -, hrb⟩ := (mem_normalize b rows).1 hb
  obtain ⟨p, hp⟩ := rowRecord_year_fin ra a hra
  obtain ⟨q, hq⟩ := rowRecord_year_fin rb b hrb
  unfold yearOrd at hab
  rw [hp, hq] at hab
  simp only [yearVal] at hab
  unfold yearLe
  rw [hp, hq]
  exact hab

-- ---------- C5 ----------

/-- C5: a row whose year is missing (the lookup yields `undefined`,
which coerces to NaN) or whose year value does not coerce to a finite
number is dropped silently: it produces no record, prepending it leaves
the output unchanged, and every output record has a finite numeric
year. -/
theorem normalize_year_drop :
    (∀ r : RawRow, (toNumber (mapGet r "year")).isFinite = false →
      rowRecord r = none) ∧
    (∀ (r : RawRow) (rows : List RawRow),
      (toNumber (mapGet r "year")).isFinite = false →
      normalizeFinancialRows (r :: rows) = normalizeFinancialRows rows) ∧
    (∀ (rows : List RawRow) (rec : FinancialRecord),
      rec ∈ normalizeFinancialRows rows → ∃ q : ℚ, rec.year = .fin q) := by
  have hdrop : ∀ r : RawRow, (toNumber (mapGet r "year")).isFinite = false →
      rowRecord r = none := by
    intro r h
    have hy : num (mapGet r "year") = none := (num_eq_none_iff _).2 h
    simp [rowRecord, hy]
  refine ⟨hdrop, ?_, ?_⟩
  · intro r rows h
    unfold normalizeFinancialRows
    rw [List.filterMap_cons_none (hdrop r h)]
  · intro rows rec hmem
    obtain ⟨r, -, hr⟩ := (mem_normalize rec rows).1 hmem
    exact rowRecord_year_fin r rec hr

/-- C5 witness: a row with no year key is dropped and contributes
nothing next to a valid row. -/
theorem normalize_year_drop_witness :
    rowRecord [("revenue", JSVal.num (.fin 5))] = none ∧
    normalizeFinancialRows
        [[("revenue", JSVal.num (.fin 5))], [("year", JSVal.num (.fin 2020))]] =
      normalizeFinancialRows [[("year", JSVal.num (.fin 2020))]] := by
  constructor
  · exact normalize_year_drop.1 _ (by decide)
  · exact normalize_year_drop.2.1 _ _ (by decide)

-- ---------- C6 ----------

theorem rowRecord_congr (r1 r2 : RawRow)
    (h : lowerMapEntries r1 = lowerMapEntries r2) : rowRecord r1 = rowRecord r2 := by
  unfold rowRecord mapGet mapHas
  rw [h]

theorem filterMap_rowRecord_congr :
    ∀ rs1 rs2 : List RawRow, rs1.map lowerMapEntries = rs2.map lowerMapEntries →
      rs1.filterMap rowRecord = rs2.filterMap rowRecord := by
  intro rs1
  induction rs1 with
  | nil =>
    intro rs2 h
    cases rs2 with
    | nil => rfl
    | cons b t => simp at h
  | cons a t ih =>
    intro rs2 h
    cases rs2 with
    | nil => simp at h
    | cons b t2 =>
      simp only [List.map_cons, List.cons.injEq] at h
      rw [List.filterMap_cons, List.filterMap_cons, rowRecord_congr a b h.1, ih t2 h.2]

/-- C6 counterexample: alias equivalence fails for a `null` value.  A
row with `revenue: null` yields a null revenue field (the nullish value
falls through `??` to the absent `sales` key, and `undefined` coerces to
NaN), but the same row with the value under the `sales` alias yields
revenue 0, because `Number(null) = 0`. -/
theorem normalize_alias_null_value_counterexample :
    normalizeFinancialRows [[("revenue", .null), ("year", .num (.fin 2020))]] ≠
      normalizeFinancialRows [[("sales", .null), ("year", .num (.fin 2020))]] := by decide

/-- C6 (amended): the spec's concrete pair normalizes identically; any
two row sets whose keys agree after case/whitespace normalization
produce identical outputs; and moving a value between a primary key and
its documented alias (revenue/sales, operatingincome/operating_income,
netincome/net_income) preserves the record whenever the value is not
nullish — for a `null` value the primary key yields a null field while
the alias coerces it to 0. -/
theorem normalize_alias_equivalence :
    (normalizeFinancialRows [[("Revenue", .num (.fin 100)), ("Year", .num (.fin 2020))]] =
      normalizeFinancialRows [[("sales", .num (.fin 100)), ("year", .num (.fin 2020))]]) ∧
    (∀ rows1 rows2 : List RawRow,
      rows1.map lowerMapEntries = rows2.map lowerMapEntries →
      normalizeFinancialRows rows1 = normalizeFinancialRows rows2) ∧
    (∀ v y : JSVal, nullish v = false →
      rowRecord [("revenue", v), ("year", y)] = rowRecord [("sales", v), ("year", y)] ∧
      rowRecord [("operatingincome", v), ("year", y)] =
        rowRecord [("operating_income", v), ("year", y)] ∧
      rowRecord [("netincome", v), ("year", y)] =
        rowRecord [("net_income", v), ("year", y)]) := by
  refine ⟨by decide, ?_, ?_⟩
  · intro rows1 rows2 h
    unfold normalizeFinancialRows
    rw [filterMap_rowRecord_congr rows1 rows2 h]
  · intro v y hv
    cases v with
    | num n => exact ⟨rfl, rfl, rfl⟩
    | str s => exact ⟨rfl, rfl, rfl⟩
    | bool b => exact ⟨rfl, rfl, rfl⟩
    | null => simp [nullish] at hv
    | undefined => simp [nullish] at hv

/-- C6 witness: keys differing only by case and whitespace normalize
identically, and the revenue/sales alias swap preserves the record for
a plain numeric value. -/
theorem normalize_alias_equivalence_witness :
    (normalizeFinancialRows [[(" YEAR ", JSVal.num (.fin 2020))]] =
      normalizeFinancialRows [[("year", JSVal.num (.fin 2020))]]) ∧
    rowRecord [("revenue", JSVal.num (.fin 7)), ("year", JSVal.num (.fin 2020))] =
      rowRecord [("sales", JSVal.num (.fin 7)), ("year", JSVal.num (.fin 2020))] := by
  constructor
  · exact normalize_alias_equivalence.2.1 _ _ (by decide)
  · exact (normalize_alias_equivalence.2.2 (JSVal.num (.fin 7)) (JSVal.num (.fin 2020))
      (by decide)).1

-- ---------- C10 ----------

/-- Whether a record's year is a strictly positive finite number. -/
def yearPosB (rec : FinancialRecord) : Bool :=
  match rec.year with
  | .fin q => decide (0 < q)
  | _ => false

/-- C10: a row whose year value is the empty or whitespace-only string
is retained: the year coerces to the finite number 0, the output
contains a record with year 0, and when every output record has year 0
or a positive year (as with companion rows with positive years), a
year-0 record is placed first by the ascending sort. -/
theorem normalize_empty_year_retained :
    (∀ s : String, trimList s.data = [] → num (.str s) = some (.fin 0)) ∧
    (∀ (rows : List RawRow) (r : RawRow) (s : String), r ∈ rows →
      mapGet r "year" = .str s → trimList s.data = [] →
      ∃ rec ∈ normalizeFinancialRows rows, rec.year = .fin 0) ∧
    (∀ rows : List RawRow,
      (∀ rec ∈ normalizeFinancialRows rows, rec.year = .fin 0 ∨ yearPosB rec = true) →
      (∃ rec ∈ normalizeFinancialRows rows, rec.year = .fin 0) →
      ∃ rec, (normalizeFinancialRows rows).head? = some rec ∧ rec.year = .fin 0) := by
  have hcoerce : ∀ s : String, trimList s.data = [] → num (.str s) = some (.fin 0) := by
    intro s h
    simp [num, toNumber, stringToNumber, h]
  refine ⟨hcoerce, ?_, ?_⟩
  · intro rows r s hr hgety htrim
    have hnum : num (mapGet r "year") = some (.fin 0) := by
      rw [hgety]; exact hcoerce s htrim
    refine ⟨{ year := .fin 0,
              revenue := num (coalesce (mapGet r "revenue") (mapGet r "sales")),
              operatingIncome := num (coalesce (mapGet r "operatingincome") (mapGet r "operating_income")),
              netIncome := num (coalesce (mapGet r "netincome") (mapGet r "net_income")),
              sharesOutstanding :=
                if mapHas r "sharesoutstanding" then num (mapGet r "sharesoutstanding") else none },
           ?_, rfl⟩
    rw [mem_normalize]
    exact ⟨r, hr, (rowRecord_eq_some_iff r _).2 ⟨by rw [hnum], rfl, rfl, rfl, rfl⟩⟩
  · intro rows hall hex
    obtain ⟨rec0, hmem, h0⟩ := hex
    cases hout : normalizeFinancialRows rows with
    | nil => rw [hout] at hmem; simp at hmem
    | cons hd tl =>
      rcases hall hd (by rw [hout]; exact List.mem_cons_self hd tl) with hh | hh
      · exact ⟨hd, by simp [hout], hh⟩
      · exfalso
        rw [hout] at hmem
        have hpw := normalize_pairwise rows
        rw [hout] at hpw
        unfold yearPosB at hh
        rcases List.mem_cons.1 hmem with rfl | hmem2
        · rw [h0] at hh
          simp at hh
        · have hord : yearOrd hd rec0 := (List.pairwise_cons.1 hpw).1 rec0 hmem2
          unfold yearOrd at hord
          cases hq : hd.year with
          | fin q =>
            rw [hq] at hh
            simp only [decide_eq_true_eq] at hh
            rw [hq, h0] at hord
            simp only [yearVal] at hord
            exact absurd hord (not_le.2 hh)
          | nan => rw [hq] at hh; simp at hh
          | inf => rw [hq] at hh; simp at hh
          | negInf => rw [hq] at hh; simp at hh

/-- C10 witness: a whitespace-only year row next to a year-2020 row is
retained as year 0 and sorted first. -/
theorem normalize_empty_year_retained_witness :
    (∃ rec ∈ normalizeFinancialRows
        [[("year", JSVal.str " "), ("revenue", JSVal.num (.fin 5))],
         [("year", JSVal.num (.fin 2020))]], rec.year = .fin 0) ∧
    (∃ rec, (normalizeFinancialRows
        [[("year", JSVal.str " "), ("revenue", JSVal.num (.fin 5))],
         [("year", JSVal.num (.fin 2020))]]).head? = some rec ∧ rec.year = .fin 0) := by
  constructor
  · exact normalize_empty_year_retained.2.1 _
      [("year", JSVal.str " "), ("revenue", JSVal.num (.fin 5))] " "
      (by decide) (by decide) (by decide)
  · exact normalize_empty_year_retained.2.2 _ (by decide)
      (normalize_empty_year_retained.2.1 _
        [("year", JSVal.str " "), ("revenue", JSVal.num (.fin 5))] " "
        (by decide) (by decide) (by decide))

-- ---------- C8 ----------

theorem jsMul_comm (a b : JSNum) : a.mul b = b.mul a := by
  cases a <;> cases b <;> simp [JSNum.mul, mul_comm]

/-- C8: the blended fair value in both `fetchValuationMetrics` and the
askAI local fallback equals the spec formula
`0.5 * evPerShare + 0.25 * pePerShare + 0.25 * psPerShare`, with no
guard on non-finite fields (a NaN field propagates to the result), and
the snapshot with fairEV 10, fairPE 8, fairPS 6 yields exactly 8.5. -/
theorem blendedFairValue_formula :
    (∀ m : ValuationSnapshot, askAILocalFV m = specBlendedFairValue m) ∧
    (∀ m : ValuationSnapshot,
      weightedFairValue m.fairEV m.fairPE m.fairPS = specBlendedFairValue m) ∧
    (∀ m : ValuationSnapshot, m.fairEV = JSNum.nan → askAILocalFV m = JSNum.nan) ∧
    (askAILocalFV
        { price := .fin 0, fairEV := .fin 10, fairPE := .fin 8, fairPS := .fin 6,
          bookValue := .fin 0, grossMargin := .fin 0, netMargin := .fin 0,
          opMargin := .fin 0 } = .fin 8.5) := by
  refine ⟨?_, ?_, ?_, ?_⟩
  · intro m
    unfold askAILocalFV specBlendedFairValue
    rw [jsMul_comm m.fairEV, jsMul_comm m.fairPE, jsMul_comm m.fairPS]
  · intro m
    unfold weightedFairValue specBlendedFairValue
    rw [jsMul_comm m.fairEV, jsMul_comm m.fairPE, jsMul_comm m.fairPS]
  · intro m h
    unfold askAILocalFV
    rw [h]
    simp [JSNum.mul, JSNum.add]
  · norm_num [askAILocalFV, JSNum.mul, JSNum.add]

/-- C8 witness: a snapshot with a NaN enterprise-value field propagates
NaN through the blend — no finiteness guard intervenes. -/
theorem blendedFairValue_formula_witness :
    askAILocalFV
        { price := .fin 1, fairEV := JSNum.nan, fairPE := .fin 8, fairPS := .fin 6,
          bookValue := .fin 0, grossMargin := .fin 0, netMargin := .fin 0,
          opMargin := .fin 0 } = JSNum.nan :=
  blendedFairValue_formula.2.2.1 _ rfl
